import Mathlib

/-!
Shallow embedding of the model-zoo training/export scripts:
`mlperf_resnet/resnet_run_loop.py` (learning-rate schedules, per-device
batch splitting, the loss/optimizer assembly, and the epoch-chunked
train/evaluate driver loop) and
`tensorflow_serving/wide_deep_graph_to_saved_model.py` (the export script's
argument guards and output).

Machine floats are modelled by exact rationals (ℚ); Python's `int()` on a
non-negative float is `Int.floor`; Python's integer `//` on naturals is
Nat division.  Side effects (printing, directory writing, estimator calls)
are reified as data (lists of events / result records).
-/

namespace ResnetRunLoop

/-! ## `per_device_batch_size` (resnet_run_loop.py lines 437-465) -/

/-- The payload of the `ValueError` raised by `per_device_batch_size`:
the formatted message names the GPU count, the offending batch size and a
remediation suggestion `batch_size - remainder`. -/
structure InvalidConfiguration where
  num_gpus : ℕ
  batch_size : ℕ
  suggested_batch_size : ℕ
  deriving Repr, DecidableEq

/-- `per_device_batch_size(batch_size, num_gpus)`: for `num_gpus <= 1`
return `batch_size` unchanged; otherwise demand divisibility and return
`int(batch_size / num_gpus)` (exact, hence Nat division), raising a
`ValueError` carrying the remediation suggestion when the remainder is
nonzero. -/
def per_device_batch_size (batch_size num_gpus : ℕ) :
    Except InvalidConfiguration ℕ :=
  if num_gpus ≤ 1 then .ok batch_size
  else
    let remainder := batch_size % num_gpus
    if remainder ≠ 0 then
      .error ⟨num_gpus, batch_size, batch_size - remainder⟩
    else .ok (batch_size / num_gpus)

/-! ## The epoch-chunked train/evaluate driver (`resnet_main`, lines 562-570) -/

/-- Fixed training-set size `_NUM_IMAGES['train']`. -/
def NUM_IMAGES_train : ℕ := 1281167

/-- `steps_per_epoch = _NUM_IMAGES['train'] // flags.batch_size`. -/
def steps_per_epoch (batch_size : ℕ) : ℕ := NUM_IMAGES_train / batch_size

/-- Observable actions of the driver loop body: one training chunk of a
given step count, or one evaluation round. -/
inductive TrainEvent
  | trainChunk (steps : ℕ)
  | evaluate
  deriving Repr, DecidableEq

/-- `n` iterations of the loop body
`estimator.train(..., steps=steps); estimator.evaluate(...)`. -/
def resnet_chunks (steps : ℕ) : ℕ → List TrainEvent
  | 0 => []
  | Nat.succ n =>
      TrainEvent.trainChunk steps :: TrainEvent.evaluate :: resnet_chunks steps n

/-- The event trace of `resnet_main`'s driver loop:
`for i in range(flags.train_epochs // flags.epochs_between_evals)` runs the
train/evaluate body once per iteration, training
`steps_per_epoch * epochs_between_evals` steps each time. -/
def resnet_main_schedule (train_epochs epochs_between_evals batch_size : ℕ) :
    List TrainEvent :=
  resnet_chunks (steps_per_epoch batch_size * epochs_between_evals)
    (train_epochs / epochs_between_evals)

/-- Whether an event is a training chunk. -/
def TrainEvent.isChunk : TrainEvent → Bool
  | .trainChunk _ => true
  | .evaluate => false

/-- Whether an event is an evaluation round. -/
def TrainEvent.isEvaluation : TrainEvent → Bool
  | .trainChunk _ => false
  | .evaluate => true

/-! ## `learning_rate_with_decay` (lines 148-235)

Floats are modelled by ℚ; `int()` on the non-negative floats appearing here
is `Int.floor`; the global step is ℤ (a TF int64 scalar). -/

/-- The closed-over hyperparameters of `learning_rate_with_decay`, plus
`flags.train_epochs` which `poly_rate_fn` reads. -/
structure LRConfig where
  batch_size : ℕ
  batch_denom : ℕ
  num_images : ℕ
  boundary_epochs : List ℕ
  decay_rates : List ℚ
  base_lr : ℚ
  train_epochs : ℕ
  deriving Repr, DecidableEq

/-- `initial_learning_rate = base_lr * batch_size / batch_denom`. -/
def initial_learning_rate (c : LRConfig) : ℚ :=
  c.base_lr * (c.batch_size : ℚ) / (c.batch_denom : ℚ)

/-- `batches_per_epoch = num_images / batch_size` (true division). -/
def batches_per_epoch (c : LRConfig) : ℚ :=
  (c.num_images : ℚ) / (c.batch_size : ℚ)

/-- `boundaries = [int(batches_per_epoch * epoch) for epoch in boundary_epochs]`. -/
def lr_boundaries (c : LRConfig) : List ℤ :=
  c.boundary_epochs.map fun epoch => ⌊batches_per_epoch c * (epoch : ℚ)⌋

/-- `vals = [initial_learning_rate * decay for decay in decay_rates]`. -/
def lr_vals (c : LRConfig) : List ℚ :=
  c.decay_rates.map fun decay => initial_learning_rate c * decay

/-- `warmup_steps = int(batches_per_epoch * 5)`. -/
def warmup_steps (c : LRConfig) : ℤ := ⌊batches_per_epoch c * 5⌋

/-- `tf.compat.v1.train.piecewise_constant(x, boundaries, vals)` for sorted
`boundaries`: value `vals[i]` on the interval `boundaries[i-1] < x <=
boundaries[i]` (so index = how many boundaries lie strictly below `x`). -/
def piecewise_constant (x : ℤ) (boundaries : List ℤ) (vals : List ℚ) : ℚ :=
  vals.getD (boundaries.countP fun b => decide (b < x)) 0

/-- Policy A, `learning_rate_fn(global_step)`: the piecewise-constant decayed
rate, overridden by the linear warm-up ramp
`initial_learning_rate * global_step / warmup_steps` while
`global_step < warmup_steps` (the `tf.cond`). -/
def learning_rate_fn (c : LRConfig) (global_step : ℤ) : ℚ :=
  let lr := piecewise_constant global_step (lr_boundaries c) (lr_vals c)
  let warmup_lr :=
    initial_learning_rate c * (global_step : ℚ) / ((warmup_steps c : ℤ) : ℚ)
  if global_step < warmup_steps c then warmup_lr else lr

/-- Policy B's warm-up parameter table (lines 202-213): `(plr, w_epochs)`
selected by batch-size range. -/
def lars_params (batch_size : ℕ) : ℚ × ℕ :=
  if batch_size ≤ 4096 then (5, 5)
  else if batch_size ≤ 8192 then (10, 5)
  else if batch_size ≤ 16384 then (25, 5)
  else (33, 25)

/-- `w_steps = int(w_epochs * batches_per_epoch)`. -/
def lars_w_steps (c : LRConfig) : ℤ :=
  ⌊((lars_params c.batch_size).2 : ℚ) * batches_per_epoch c⌋

/-- The horizon passed to `polynomial_decay`:
`train_steps - w_steps + 1` with `train_steps = batches_per_epoch *
flags.train_epochs`. -/
def poly_horizon (c : LRConfig) : ℚ :=
  batches_per_epoch c * (c.train_epochs : ℚ) - ((lars_w_steps c : ℤ) : ℚ) + 1

/-- `tf.compat.v1.train.polynomial_decay(learning_rate, global_step,
decay_steps, end_learning_rate, power)` without cycling: clamp the step to
the horizon and interpolate
`(lr - end) * (1 - step/decay_steps)^power + end`.  The call site in
`poly_rate_fn` leaves `end_learning_rate` at the framework default
`0.0001`. -/
def polynomial_decay (learning_rate global_step decay_steps
    end_learning_rate : ℚ) (power : ℕ) : ℚ :=
  let gstep := min global_step decay_steps
  (learning_rate - end_learning_rate) * (1 - gstep / decay_steps) ^ power +
    end_learning_rate

/-- Policy B, `poly_rate_fn(global_step)`: linear ramp
`plr * global_step / w_steps` while `global_step <= w_steps`
(the `tf.where`), then polynomial decay with power 2 over
`train_steps - w_steps + 1` steps, the decay progression floored at 1 by
`tf.maximum(1, global_step - w_steps)`. -/
def poly_rate_fn (c : LRConfig) (global_step : ℤ) : ℚ :=
  let plr := (lars_params c.batch_size).1
  let w_steps := lars_w_steps c
  let wrate := plr * (global_step : ℚ) / ((w_steps : ℤ) : ℚ)
  let decay_steps : ℤ := max 1 (global_step - w_steps)
  let poly_rate :=
    polynomial_decay plr ((decay_steps : ℤ) : ℚ) (poly_horizon c)
      (1 / 10000) 2
  if global_step ≤ w_steps then wrate else poly_rate

/-- `learning_rate_with_decay` returns `poly_rate_fn` when `enable_lars`
and `learning_rate_fn` otherwise. -/
def learning_rate_with_decay (c : LRConfig) (enable_lars : Bool) : ℤ → ℚ :=
  if enable_lars then poly_rate_fn c else learning_rate_fn c

/-! ## Loss scaling in `resnet_model_fn` (lines 392-404) -/

/-- The gradient pipeline of the training branch: when `loss_scale != 1`,
`compute_gradients` is called on `loss * loss_scale` and every resulting
gradient is divided by `loss_scale` before `apply_gradients`; otherwise
`minimize` computes the gradients of the raw loss.  `compute_gradients` is
the framework's autodiff, abstracted as a function from the scalar loss to
the gradient list. -/
def train_op_gradients (loss_scale : ℚ) (compute_gradients : ℚ → List ℚ)
    (loss : ℚ) : List ℚ :=
  if loss_scale ≠ 1 then
    (compute_gradients (loss * loss_scale)).map fun g => g / loss_scale
  else
    compute_gradients loss

/-! ## Cross-entropy branch in `resnet_model_fn` (lines 326-333) -/

/-- Which cross-entropy op the loss assembly builds, with its inputs. -/
inductive CrossEntropyChoice
  | smoothed (onehot_labels : List ℚ) (label_smoothing : ℚ)
  | sparse (labels : ℕ)
  deriving Repr, DecidableEq

/-- `tf.one_hot(label, depth)` as a rational vector. -/
def one_hot (label depth : ℕ) : List ℚ :=
  (List.range depth).map fun i => if i = label then 1 else 0

/-- The branch on `label_smoothing != 0.0`: one-hot encode the labels to
depth 1001 and use smoothed softmax cross-entropy, else use sparse
(index-based) softmax cross-entropy on the labels directly. -/
def cross_entropy_branch (label_smoothing : ℚ) (labels : ℕ) :
    CrossEntropyChoice :=
  if label_smoothing ≠ 0 then
    .smoothed (one_hot labels 1001) label_smoothing
  else
    .sparse labels

/-- Whether the smoothed branch was chosen. -/
def CrossEntropyChoice.isSmoothed : CrossEntropyChoice → Bool
  | .smoothed _ _ => true
  | .sparse _ => false

end ResnetRunLoop

namespace WideDeepExport

/-! ## `wide_deep_graph_to_saved_model.py`, `main` (lines 37-85) -/

/-- The usage line printed by the argv guard. -/
def usage_msg : String :=
  "Usage: wide_deep_graph_to_saved_model.py [--model_version=y] import_path export_dir"

/-- The message printed when `import_path` is empty. -/
def path_msg : String :=
  "Please specify the path to the model graph you want to convert to SavedModel format."

/-- The message printed when `model_version` is non-positive. -/
def version_msg : String :=
  "Please specify a positive value for version number."

/-- Outcome of a run of the export script's `main`: the process exit code,
the messages printed, and the SavedModel directory written (if any). -/
structure ExportResult where
  exit_code : ℤ
  printed : List String
  saved_dir : Option String
  deriving Repr, DecidableEq

/-- Python's `s.startswith('-')`: the first character of `s` is `-`. -/
def starts_with_dash (s : String) : Bool :=
  match s.data with
  | [] => false
  | c :: _ => c = '-'

/-- The first guard of `main`:
`len(sys.argv) < 2 or sys.argv[-1].startswith('-')`. -/
def argv_guard (argv : List String) : Bool :=
  decide (argv.length < 2) || starts_with_dash (argv.getLastD "")

/-- `main(_)` of the export script.  Guard order from the source:
(1) `len(sys.argv) < 2 or sys.argv[-1].startswith('-')` prints the usage
line and exits `-1`; (2) empty `FLAGS.import_path` prints the path message
and exits `-1`; (3) `FLAGS.model_version <= 0` prints the version message
and exits `-1`; otherwise the SavedModel is written to
`export_dir + '/' + str(model_version)` and `Done!` is printed, the
process exiting `0`. -/
def wide_deep_main (argv : List String) (import_path export_dir : String)
    (model_version : ℤ) : ExportResult :=
  if argv_guard argv then
    ⟨-1, [usage_msg], none⟩
  else if import_path = "" then
    ⟨-1, [path_msg], none⟩
  else if model_version ≤ 0 then
    ⟨-1, [version_msg], none⟩
  else
    let out_dir := export_dir ++ "/" ++ toString model_version
    ⟨0, ["Exporting trained model to " ++ out_dir, "Done!"], some out_dir⟩

end WideDeepExport

namespace ResnetRunLoop

/-! ## Claims C2, C3, C10 -/

/-- C2: `per_device_batch_size(b, d)` returns `b` unchanged when `d <= 1`;
returns exactly `b / d` when `d > 1` and `d` divides `b`; and raises an
`InvalidConfiguration` error carrying the remediation suggestion
`b - b % d` (never returning a value) when `d > 1` and `b mod d ≠ 0`. -/
theorem per_device_batch_size_spec (b d : ℕ) :
    (d ≤ 1 → per_device_batch_size b d = .ok b) ∧
    (1 < d → b % d = 0 → per_device_batch_size b d = .ok (b / d)) ∧
    (1 < d → b % d ≠ 0 →
      per_device_batch_size b d =
        .error ⟨d, b, b - b % d⟩) := by
  refine ⟨fun h => ?_, fun h hdvd => ?_, fun h hrem => ?_⟩
  · simp [per_device_batch_size, h]
  · simp [per_device_batch_size, Nat.not_le.mpr h, hdvd]
  · simp [per_device_batch_size, Nat.not_le.mpr h, hrem]

/-- Witness for C2 at concrete inputs: `d = 1` returns the batch size,
`(32, 4)` splits to `8`, and `(33, 4)` raises with suggestion `32`. -/
theorem per_device_batch_size_spec_witness :
    per_device_batch_size 32 1 = .ok 32 ∧
    per_device_batch_size 32 4 = .ok 8 ∧
    per_device_batch_size 33 4 = .error ⟨4, 33, 32⟩ :=
  ⟨(per_device_batch_size_spec 32 1).1 (by decide),
   (per_device_batch_size_spec 32 4).2.1 (by decide) (by decide),
   (per_device_batch_size_spec 33 4).2.2 (by decide) (by decide)⟩

/-- Auxiliary: counting chunks/evaluations in `resnet_chunks`. -/
theorem resnet_chunks_counts (steps n : ℕ) :
    (resnet_chunks steps n).countP TrainEvent.isChunk = n ∧
    (resnet_chunks steps n).countP TrainEvent.isEvaluation = n := by
  induction n with
  | zero => simp [resnet_chunks]
  | succ n ih =>
      simp [resnet_chunks, List.countP_cons, TrainEvent.isChunk,
        TrainEvent.isEvaluation, ih.1, ih.2]

/-- Auxiliary: every chunk in `resnet_chunks steps n` trains `steps` steps. -/
theorem resnet_chunks_steps (steps n s : ℕ)
    (h : TrainEvent.trainChunk s ∈ resnet_chunks steps n) : s = steps := by
  induction n with
  | zero => simp [resnet_chunks] at h
  | succ n ih =>
      simp only [resnet_chunks, List.mem_cons] at h
      rcases h with h | h | h
      · exact (TrainEvent.trainChunk.injEq ..).mp h
      · exact absurd h (by simp)
      · exact ih h

/-- C3: `resnet_main` performs exactly `train_epochs // epochs_between_evals`
training-chunk/evaluate cycles, each chunk training
`steps_per_epoch * epochs_between_evals` steps with
`steps_per_epoch = 1281167 // batch_size`; in particular `train_epochs = 10`
with `epochs_between_evals = 2` yields exactly 5 cycles and the trace ends
(the driver reaches Done). -/
theorem resnet_main_cycles (te ebe b : ℕ) :
    (resnet_main_schedule te ebe b).countP TrainEvent.isChunk = te / ebe ∧
    (resnet_main_schedule te ebe b).countP TrainEvent.isEvaluation = te / ebe ∧
    (∀ s, TrainEvent.trainChunk s ∈ resnet_main_schedule te ebe b →
      s = steps_per_epoch b * ebe) ∧
    (resnet_main_schedule 10 2 b).countP TrainEvent.isChunk = 5 := by
  refine ⟨(resnet_chunks_counts _ _).1, (resnet_chunks_counts _ _).2,
    fun s h => resnet_chunks_steps _ _ _ h, ?_⟩
  exact (resnet_chunks_counts _ _).1

/-- Witness for C3: with `train_epochs = 10`, `epochs_between_evals = 2`,
`batch_size = 32`, the schedule holds 5 training chunks, 5 evaluations,
and its chunk of `40036 * 2` steps is the announced per-chunk count. -/
theorem resnet_main_cycles_witness :
    (resnet_main_schedule 10 2 32).countP TrainEvent.isChunk = 5 ∧
    (80072 : ℕ) = steps_per_epoch 32 * 2 :=
  ⟨(resnet_main_cycles 10 2 32).2.2.2,
   (resnet_main_cycles 10 2 32).2.2.1 80072 (by decide)⟩

/-- C10: when `train_epochs < epochs_between_evals` the chunk count
`train_epochs // epochs_between_evals` floors to zero, so the driver loop
body never runs: no training step, no evaluation, no error — the schedule
is empty. -/
theorem resnet_main_empty_schedule (te ebe b : ℕ) (h : te < ebe) :
    resnet_main_schedule te ebe b = [] := by
  unfold resnet_main_schedule
  rw [Nat.div_eq_of_lt h]
  rfl

/-- Witness for C10: one epoch with evaluations every two epochs trains and
evaluates nothing. -/
theorem resnet_main_empty_schedule_witness :
    resnet_main_schedule 1 2 32 = [] :=
  resnet_main_empty_schedule 1 2 32 (by decide)

end ResnetRunLoop

namespace WideDeepExport

/-! ## Claims C8, C9 -/

/-- C8: once past the argv guard, the export script's `main` exits `-1`
printing the "Please specify the path" message when `import_path` is empty;
exits `-1` printing the version message when `model_version <= 0`; and on
valid inputs writes the versioned directory `export_dir/model_version`,
prints `Done!`, and exits `0`. -/
theorem wide_deep_main_spec (argv : List String) (ip ed : String) (v : ℤ)
    (hargv : argv_guard argv = false) :
    (ip = "" → wide_deep_main argv ip ed v = ⟨-1, [path_msg], none⟩) ∧
    (ip ≠ "" → v ≤ 0 →
      wide_deep_main argv ip ed v = ⟨-1, [version_msg], none⟩) ∧
    (ip ≠ "" → 0 < v →
      (wide_deep_main argv ip ed v).exit_code = 0 ∧
      (wide_deep_main argv ip ed v).saved_dir =
        some (ed ++ "/" ++ toString v) ∧
      "Done!" ∈ (wide_deep_main argv ip ed v).printed) := by
  refine ⟨fun hip => ?_, fun hip hv => ?_, fun hip hv => ?_⟩
  · simp [wide_deep_main, hargv, hip]
  · simp [wide_deep_main, hargv, hip, hv]
  · simp [wide_deep_main, hargv, hip, Int.not_le.mpr hv]

/-- Witness for C8 at concrete inputs: a well-formed argv with an
empty import path, a zero version, and a fully valid call. -/
theorem wide_deep_main_spec_witness :
    wide_deep_main ["wide_deep_graph_to_saved_model.py", "graph.pb"] "" "/tmp" 1 =
      ⟨-1, [path_msg], none⟩ ∧
    wide_deep_main ["wide_deep_graph_to_saved_model.py", "graph.pb"] "graph.pb" "/tmp" 0 =
      ⟨-1, [version_msg], none⟩ ∧
    ((wide_deep_main ["wide_deep_graph_to_saved_model.py", "graph.pb"] "graph.pb" "/tmp" 3).exit_code = 0 ∧
      (wide_deep_main ["wide_deep_graph_to_saved_model.py", "graph.pb"] "graph.pb" "/tmp" 3).saved_dir =
        some ("/tmp" ++ "/" ++ toString (3 : ℤ)) ∧
      "Done!" ∈ (wide_deep_main ["wide_deep_graph_to_saved_model.py", "graph.pb"] "graph.pb" "/tmp" 3).printed) :=
  ⟨(wide_deep_main_spec _ _ "/tmp" 1 (by decide)).1 rfl,
   (wide_deep_main_spec _ _ "/tmp" 0 (by decide)).2.1 (by decide) (by decide),
   (wide_deep_main_spec _ _ "/tmp" 3 (by decide)).2.2 (by decide) (by decide)⟩

/-- C9: the argv guard runs before any flag validation — if fewer than two
command-line arguments are present or the last argument starts with `-`,
`main` prints the usage line and exits `-1` whatever `import_path` and
`model_version` hold; a call whose last argument is flag-style is rejected
here. -/
theorem wide_deep_main_argv_guard_first (argv : List String)
    (ip ed : String) (v : ℤ)
    (h : argv_guard argv = true) :
    wide_deep_main argv ip ed v = ⟨-1, [usage_msg], none⟩ := by
  simp [wide_deep_main, h]

/-- Witness for C9: a call carrying only flag-style arguments (and a
valid import path and version in the flags) is still rejected by the
first guard. -/
theorem wide_deep_main_argv_guard_first_witness :
    wide_deep_main ["wide_deep_graph_to_saved_model.py", "--model_version=1"]
      "graph.pb" "/tmp" 1 = ⟨-1, [usage_msg], none⟩ :=
  wide_deep_main_argv_guard_first _ "graph.pb" "/tmp" 1 (by decide)

end WideDeepExport

namespace ResnetRunLoop

/-! ## Claims C5, C6, C7 -/

/-- C5: Policy B's warm-up parameter selection is exactly the step table
keyed by batch size: `batch_size <= 4096` yields `(plr = 5.0, w_epochs = 5)`;
`batch_size <= 8192` yields `(10.0, 5)`; `batch_size <= 16384` yields
`(25.0, 5)`; any larger batch size yields `(33.0, 25)`. -/
theorem lars_params_table (b : ℕ) :
    (b ≤ 4096 → lars_params b = (5, 5)) ∧
    (4096 < b → b ≤ 8192 → lars_params b = (10, 5)) ∧
    (8192 < b → b ≤ 16384 → lars_params b = (25, 5)) ∧
    (16384 < b → lars_params b = (33, 25)) := by
  refine ⟨fun h1 => ?_, fun h1 h2 => ?_, fun h1 h2 => ?_, fun h1 => ?_⟩
  · simp [lars_params, h1]
  · simp [lars_params, Nat.not_le.mpr h1, h2]
  · simp [lars_params, Nat.not_le.mpr h1, Nat.not_le.mpr (by omega : 4096 < b), h2]
  · simp [lars_params, Nat.not_le.mpr h1,
      Nat.not_le.mpr (by omega : 4096 < b), Nat.not_le.mpr (by omega : 8192 < b)]

/-- Witness for C5 at the four batch sizes named by the spec. -/
theorem lars_params_table_witness :
    lars_params 4096 = (5, 5) ∧ lars_params 8192 = (10, 5) ∧
    lars_params 16384 = (25, 5) ∧ lars_params 32768 = (33, 25) :=
  ⟨(lars_params_table 4096).1 (by decide),
   (lars_params_table 8192).2.1 (by decide) (by decide),
   (lars_params_table 16384).2.2.1 (by decide) (by decide),
   (lars_params_table 32768).2.2.2 (by decide)⟩

/-- C6: when `loss_scale != 1` the loss is multiplied by `loss_scale`
before gradient computation and every gradient is divided by `loss_scale`
before being applied, and — autodiff being homogeneous in scalar
multiples of the loss — the applied gradients equal the gradients computed
without scaling, for any nonzero scale (in particular s = 1, 128, 1024). -/
theorem train_op_gradients_roundtrip (loss_scale : ℚ) (f : ℚ → List ℚ)
    (loss : ℚ) (hs : loss_scale ≠ 0)
    (hlin : ∀ c x : ℚ, f (x * c) = (f x).map fun g => g * c) :
    train_op_gradients loss_scale f loss = f loss := by
  unfold train_op_gradients
  by_cases h1 : loss_scale = 1
  · simp [h1]
  · rw [if_pos h1, hlin loss_scale loss, List.map_map]
    have : ∀ g ∈ f loss, ((fun g => g / loss_scale) ∘ fun g => g * loss_scale) g = g := by
      intro g _
      exact mul_div_cancel_right₀ g hs
    rw [List.map_congr_left this]
    exact List.map_id' (f loss)

/-- Witness for C6: a gradient map linear in the loss, round-tripped at the
spec's scales 1, 128 and 1024. -/
theorem train_op_gradients_roundtrip_witness :
    train_op_gradients 1 (fun L => [2 * L, 3 * L]) 7 = [14, 21] ∧
    train_op_gradients 128 (fun L => [2 * L, 3 * L]) 7 = [14, 21] ∧
    train_op_gradients 1024 (fun L => [2 * L, 3 * L]) 7 = [14, 21] :=
  ⟨(train_op_gradients_roundtrip 1 _ 7 (by norm_num)
      (fun c x => by simp [mul_assoc, mul_comm, mul_left_comm])).trans (by norm_num),
   (train_op_gradients_roundtrip 128 _ 7 (by norm_num)
      (fun c x => by simp [mul_assoc, mul_comm, mul_left_comm])).trans (by norm_num),
   (train_op_gradients_roundtrip 1024 _ 7 (by norm_num)
      (fun c x => by simp [mul_assoc, mul_comm, mul_left_comm])).trans (by norm_num)⟩

/-- C7: the loss assembly takes the smoothed branch — one-hot encoding the
labels to depth 1001 — exactly when `label_smoothing != 0.0`, and the
sparse (index-based) branch exactly when it is zero; the choice depends
only on `label_smoothing`, and the one-hot vector places 1 at the label
index and 0 elsewhere. -/
theorem cross_entropy_branch_spec (ls : ℚ) (labels : ℕ) :
    (ls ≠ 0 → cross_entropy_branch ls labels =
      .smoothed (one_hot labels 1001) ls) ∧
    (ls = 0 → cross_entropy_branch ls labels = .sparse labels) ∧
    ((cross_entropy_branch ls labels).isSmoothed = true ↔ ls ≠ 0) ∧
    (∀ i, i < 1001 →
      (one_hot labels 1001).getD i 0 = if i = labels then 1 else 0) := by
  refine ⟨fun h => ?_, fun h => ?_, ?_, fun i hi => ?_⟩
  · simp [cross_entropy_branch, h]
  · simp [cross_entropy_branch, h]
  · by_cases h : ls = 0 <;>
      simp [cross_entropy_branch, h, CrossEntropyChoice.isSmoothed]
  · have hlen : i < (one_hot labels 1001).length := by
      simpa [one_hot] using hi
    rw [List.getD_eq_getElem _ _ hlen]
    simp [one_hot]

/-- Witness for C7: a nonzero smoothing factor of 1/10 takes the smoothed
branch, zero takes the sparse branch, and the one-hot vector is 1 at the
label. -/
theorem cross_entropy_branch_spec_witness :
    cross_entropy_branch (1 / 10) 3 =
      CrossEntropyChoice.smoothed (one_hot 3 1001) (1 / 10) ∧
    cross_entropy_branch 0 3 = CrossEntropyChoice.sparse 3 ∧
    (one_hot 3 1001).getD 3 0 = 1 :=
  ⟨(cross_entropy_branch_spec (1 / 10) 3).1 (by norm_num),
   (cross_entropy_branch_spec 0 3).2.1 rfl,
   ((cross_entropy_branch_spec 0 3).2.2.2 3 (by decide)).trans (by decide)⟩

end ResnetRunLoop

namespace ResnetRunLoop

/-! ## Claim C1: Policy A invariants -/

/-- Helper: `getD` with default 0 on a list of non-negatives is non-negative. -/
theorem getD_nonneg_of_forall (l : List ℚ) (h : ∀ x ∈ l, 0 ≤ x) (i : ℕ) :
    0 ≤ l.getD i 0 := by
  by_cases hi : i < l.length
  · rw [List.getD_eq_getElem _ _ hi]
    exact h _ (l.getElem_mem hi)
  · rw [List.getD_eq_default _ _ (Nat.le_of_not_lt hi)]

/-- Helper: `countP` is monotone in the predicate. -/
theorem countP_imp_le (l : List ℤ) (p q : ℤ → Bool)
    (h : ∀ x, p x = true → q x = true) : l.countP p ≤ l.countP q := by
  induction l with
  | nil => simp
  | cons a l ih =>
      rw [List.countP_cons, List.countP_cons]
      by_cases hp : p a = true
      · simp only [hp, h a hp, if_true]
        omega
      · have hp' : p a = false := by revert hp; cases p a <;> simp
        by_cases hq : q a = true
        · simp only [hp', hq, if_true, Bool.false_eq_true, if_false]
          omega
        · have hq' : q a = false := by revert hq; cases q a <;> simp
          simp only [hp', hq', Bool.false_eq_true, if_false]
          omega

/-- Helper: the number of boundaries strictly below the step is monotone in
the step. -/
theorem countP_lt_mono (l : List ℤ) {s t : ℤ} (hst : s ≤ t) :
    (l.countP fun b => decide (b < s)) ≤ l.countP fun b => decide (b < t) := by
  apply countP_imp_le
  intro b hb
  simp only [decide_eq_true_eq] at hb ⊢
  omega

/-- Helper: on a `≥`-sorted list of non-negatives, `getD _ 0` is antitone
in the index. -/
theorem sorted_getD_anti (l : List ℚ) (hs : l.Sorted (· ≥ ·))
    (h0 : ∀ x ∈ l, 0 ≤ x) {i j : ℕ} (hij : i ≤ j) :
    l.getD j 0 ≤ l.getD i 0 := by
  by_cases hj : j < l.length
  · have hi : i < l.length := Nat.lt_of_le_of_lt hij hj
    rw [List.getD_eq_getElem _ _ hj, List.getD_eq_getElem _ _ hi]
    rcases Nat.lt_or_ge i j with hlt | hge
    · have := hs.rel_get_of_lt
        (show (⟨i, hi⟩ : Fin l.length) < ⟨j, hj⟩ from hlt)
      simpa [List.get_eq_getElem] using this
    · have : i = j := Nat.le_antisymm hij hge
      subst this
      exact le_refl _
  · rw [List.getD_eq_default _ _ (Nat.le_of_not_lt hj)]
    exact getD_nonneg_of_forall l h0 i

/-- Helper: the piecewise values are non-negative when the initial rate and
all decay rates are. -/
theorem lr_vals_nonneg (c : LRConfig) (hinit : 0 ≤ initial_learning_rate c)
    (h : ∀ r ∈ c.decay_rates, 0 ≤ r) : ∀ x ∈ lr_vals c, 0 ≤ x := by
  intro x hx
  simp only [lr_vals, List.mem_map] at hx
  obtain ⟨d, hd, rfl⟩ := hx
  exact mul_nonneg hinit (h d hd)

/-- Helper: scaling a `≥`-sorted decay list by the non-negative initial
rate keeps it `≥`-sorted. -/
theorem lr_vals_sorted (c : LRConfig) (hinit : 0 ≤ initial_learning_rate c)
    (hs : c.decay_rates.Sorted (· ≥ ·)) : (lr_vals c).Sorted (· ≥ ·) := by
  unfold lr_vals
  refine List.Pairwise.map _ ?_ hs
  intro a b hab
  exact mul_le_mul_of_nonneg_left hab hinit

/-- C1: for a Policy A configuration (`enable_lars = False`, positive batch
size, batch denominator, image count and base rate, non-negative and
non-increasing decay rates), the learning rate is non-negative for all
`step >= 0`; the warm-up ramp `initial_learning_rate * step / warmup_steps`
takes precedence exactly while `step < warmup_steps` with
`warmup_steps = int(5 * batches_per_epoch)`; the rate is strictly
increasing on the warm-up region and a non-increasing step function
afterwards. -/
theorem learning_rate_fn_policyA (c : LRConfig)
    (hb : 0 < c.batch_size) (hd : 0 < c.batch_denom)
    (hlr : 0 < c.base_lr)
    (hsorted : c.decay_rates.Sorted (· ≥ ·))
    (hnonneg : ∀ r ∈ c.decay_rates, 0 ≤ r) :
    (learning_rate_with_decay c false = learning_rate_fn c) ∧
    (∀ step : ℤ, 0 ≤ step → 0 ≤ learning_rate_fn c step) ∧
    (∀ step : ℤ, step < warmup_steps c →
      learning_rate_fn c step =
        initial_learning_rate c * (step : ℚ) / ((warmup_steps c : ℤ) : ℚ)) ∧
    (∀ step : ℤ, warmup_steps c ≤ step →
      learning_rate_fn c step =
        piecewise_constant step (lr_boundaries c) (lr_vals c)) ∧
    (∀ s t : ℤ, 0 ≤ s → s < t → t < warmup_steps c →
      learning_rate_fn c s < learning_rate_fn c t) ∧
    (∀ s t : ℤ, warmup_steps c ≤ s → s ≤ t →
      learning_rate_fn c t ≤ learning_rate_fn c s) := by
  have hbq : (0 : ℚ) < (c.batch_size : ℚ) := by exact_mod_cast hb
  have hdq : (0 : ℚ) < (c.batch_denom : ℚ) := by exact_mod_cast hd
  have hinit : 0 < initial_learning_rate c := by
    unfold initial_learning_rate
    exact div_pos (mul_pos hlr hbq) hdq
  have hramp : ∀ step : ℤ, step < warmup_steps c →
      learning_rate_fn c step =
        initial_learning_rate c * (step : ℚ) / ((warmup_steps c : ℤ) : ℚ) := by
    intro step h
    simp only [learning_rate_fn]
    rw [if_pos h]
  have hpiece : ∀ step : ℤ, warmup_steps c ≤ step →
      learning_rate_fn c step =
        piecewise_constant step (lr_boundaries c) (lr_vals c) := by
    intro step h
    simp only [learning_rate_fn]
    rw [if_neg (not_lt.mpr h)]
  refine ⟨rfl, ?_, hramp, hpiece, ?_, ?_⟩
  · intro step hstep
    by_cases hw : step < warmup_steps c
    · rw [hramp step hw]
      have hwpos : (0 : ℤ) < warmup_steps c := lt_of_le_of_lt hstep hw
      have hwq : (0 : ℚ) ≤ ((warmup_steps c : ℤ) : ℚ) := by
        exact_mod_cast hwpos.le
      have hsq : (0 : ℚ) ≤ (step : ℚ) := by exact_mod_cast hstep
      exact div_nonneg (mul_nonneg hinit.le hsq) hwq
    · rw [hpiece step (not_lt.mp hw)]
      exact getD_nonneg_of_forall _ (lr_vals_nonneg c hinit.le hnonneg) _
  · intro s t hs0 hst htw
    rw [hramp s (lt_trans hst htw), hramp t htw]
    have hw0 : (0 : ℤ) < warmup_steps c :=
      lt_of_le_of_lt (le_trans hs0 hst.le) htw
    have hwq : (0 : ℚ) < ((warmup_steps c : ℤ) : ℚ) := by exact_mod_cast hw0
    have hstq : (s : ℚ) < (t : ℚ) := by exact_mod_cast hst
    exact (div_lt_div_iff_of_pos_right hwq).mpr
      (mul_lt_mul_of_pos_left hstq hinit)
  · intro s t hws hst
    rw [hpiece s hws, hpiece t (le_trans hws hst)]
    unfold piecewise_constant
    exact sorted_getD_anti _ (lr_vals_sorted c hinit.le hsorted)
      (lr_vals_nonneg c hinit.le hnonneg) (countP_lt_mono _ hst)

/-- Witness for C1 on a concrete configuration (batch 1, denominator 1,
10 images, boundary at epoch 2, decay rates `[1, 1/10]`, base rate 1):
`warmup_steps = 50`; the rate at step 100 is non-negative, strictly
increases from step 3 to 4 inside warm-up, and does not increase from step
55 to 60 after warm-up. -/
theorem learning_rate_fn_policyA_witness :
    (0 ≤ learning_rate_fn ⟨1, 1, 10, [2], [1, 1/10], 1, 20⟩ 100) ∧
    (learning_rate_fn ⟨1, 1, 10, [2], [1, 1/10], 1, 20⟩ 3 <
      learning_rate_fn ⟨1, 1, 10, [2], [1, 1/10], 1, 20⟩ 4) ∧
    (learning_rate_fn ⟨1, 1, 10, [2], [1, 1/10], 1, 20⟩ 60 ≤
      learning_rate_fn ⟨1, 1, 10, [2], [1, 1/10], 1, 20⟩ 55) := by
  have hw : warmup_steps ⟨1, 1, 10, [2], [1, 1/10], 1, 20⟩ = 50 := by
    norm_num [warmup_steps, batches_per_epoch]
  have h := learning_rate_fn_policyA ⟨1, 1, 10, [2], [1, 1/10], 1, 20⟩
    (by decide) (by decide) (by norm_num)
    (by norm_num [List.sorted_cons]) (by norm_num)
  exact ⟨h.2.1 100 (by decide),
    h.2.2.2.2.1 3 4 (by decide) (by decide) (by rw [hw]; decide),
    h.2.2.2.2.2 55 60 (by rw [hw]; decide) (by decide)⟩

end ResnetRunLoop

namespace ResnetRunLoop

/-! ## Claim C4: Policy B decay -/

/-- C4 counterexample: the claim says Policy B decays from `plr` to `0`,
but the call to `polynomial_decay` leaves the framework's default end
learning rate `0.0001` in place.  With `batch_size = 4096` (so `plr = 5`,
`w_epochs = 5`), `num_images = 4096` and `train_epochs = 10`
(`w_steps = 5`, decay horizon `6`), the fully decayed rate at step 11 is
`1/10000`, not `0` — and `poly_rate_fn` never reaches `0`. -/
theorem poly_rate_fn_end_rate_counterexample :
    poly_rate_fn ⟨4096, 256, 4096, [], [], 1/10, 10⟩ 11 = 1 / 10000 ∧
    (1 / 10000 : ℚ) ≠ 0 := by
  constructor
  · norm_num [poly_rate_fn, polynomial_decay, lars_params, lars_w_steps,
      poly_horizon, batches_per_epoch]
  · norm_num

/-- C4 (amended): in Policy B, after warm-up the rate decays from `plr`
toward the framework-default end rate `0.0001` (not `0`) via a degree-2
polynomial over the remaining training steps; whenever the warm-up epoch
count is at most `train_epochs` — including when warm-up consumes the
entire schedule — the decay horizon `train_steps - w_steps + 1` is at
least `1`, so no division by zero occurs; selection between the ramp and
the decay branch is by direct comparison of the step against `w_steps`,
with no hysteresis, and the rate is non-increasing after warm-up. -/
theorem poly_rate_fn_decay_spec (c : LRConfig)
    (hwe : (lars_params c.batch_size).2 ≤ c.train_epochs) :
    (1 ≤ poly_horizon c) ∧
    (∀ step : ℤ, step ≤ lars_w_steps c →
      poly_rate_fn c step =
        (lars_params c.batch_size).1 * (step : ℚ) /
          ((lars_w_steps c : ℤ) : ℚ)) ∧
    (∀ step : ℤ, lars_w_steps c < step →
      poly_rate_fn c step =
        ((lars_params c.batch_size).1 - 1 / 10000) *
          (1 - min ((max 1 (step - lars_w_steps c) : ℤ) : ℚ) (poly_horizon c) /
            poly_horizon c) ^ 2 + 1 / 10000) ∧
    (∀ s t : ℤ, lars_w_steps c < s → s ≤ t →
      poly_rate_fn c t ≤ poly_rate_fn c s) := by
  have hbpe : (0 : ℚ) ≤ batches_per_epoch c :=
    div_nonneg (Nat.cast_nonneg _) (Nat.cast_nonneg _)
  have hhor : 1 ≤ poly_horizon c := by
    unfold poly_horizon lars_w_steps
    have h1 := Int.floor_le
      (((lars_params c.batch_size).2 : ℚ) * batches_per_epoch c)
    have h2 : ((lars_params c.batch_size).2 : ℚ) * batches_per_epoch c ≤
        batches_per_epoch c * (c.train_epochs : ℚ) := by
      rw [mul_comm]
      exact mul_le_mul_of_nonneg_left (by exact_mod_cast hwe) hbpe
    linarith
  have hramp : ∀ step : ℤ, step ≤ lars_w_steps c →
      poly_rate_fn c step =
        (lars_params c.batch_size).1 * (step : ℚ) /
          ((lars_w_steps c : ℤ) : ℚ) := by
    intro step h
    simp only [poly_rate_fn]
    rw [if_pos h]
  have hdecay : ∀ step : ℤ, lars_w_steps c < step →
      poly_rate_fn c step =
        ((lars_params c.batch_size).1 - 1 / 10000) *
          (1 - min ((max 1 (step - lars_w_steps c) : ℤ) : ℚ) (poly_horizon c) /
            poly_horizon c) ^ 2 + 1 / 10000 := by
    intro step h
    simp only [poly_rate_fn, polynomial_decay]
    rw [if_neg (not_le.mpr h)]
  refine ⟨hhor, hramp, hdecay, ?_⟩
  intro s t hs hst
  have hsw : lars_w_steps c < t := lt_of_lt_of_le hs hst
  rw [hdecay s hs, hdecay t hsw]
  have hh : (0 : ℚ) < poly_horizon c := lt_of_lt_of_le one_pos hhor
  have hcast : (0 : ℚ) ≤ ((max 1 (s - lars_w_steps c) : ℤ) : ℚ) := by
    have : (0 : ℤ) ≤ max 1 (s - lars_w_steps c) :=
      le_trans zero_le_one (le_max_left _ _)
    exact_mod_cast this
  have hmle : ((max 1 (s - lars_w_steps c) : ℤ) : ℚ) ≤
      ((max 1 (t - lars_w_steps c) : ℤ) : ℚ) := by
    have : (max 1 (s - lars_w_steps c) : ℤ) ≤ max 1 (t - lars_w_steps c) :=
      max_le_max le_rfl (sub_le_sub_right hst _)
    exact_mod_cast this
  have hminle :
      min ((max 1 (s - lars_w_steps c) : ℤ) : ℚ) (poly_horizon c) ≤
      min ((max 1 (t - lars_w_steps c) : ℤ) : ℚ) (poly_horizon c) :=
    min_le_min hmle le_rfl
  have h0s : (0 : ℚ) ≤
      min ((max 1 (s - lars_w_steps c) : ℤ) : ℚ) (poly_horizon c) :=
    le_min hcast hh.le
  have hr : min ((max 1 (s - lars_w_steps c) : ℤ) : ℚ) (poly_horizon c) /
        poly_horizon c ≤
      min ((max 1 (t - lars_w_steps c) : ℤ) : ℚ) (poly_horizon c) /
        poly_horizon c :=
    (div_le_div_iff_of_pos_right hh).mpr hminle
  have ht1 : min ((max 1 (t - lars_w_steps c) : ℤ) : ℚ) (poly_horizon c) /
      poly_horizon c ≤ 1 :=
    (div_le_one hh).mpr (min_le_right _ _)
  have h0rs : 0 ≤
      min ((max 1 (s - lars_w_steps c) : ℤ) : ℚ) (poly_horizon c) /
        poly_horizon c :=
    div_nonneg h0s hh.le
  have hpow := pow_le_pow_left₀ (by linarith) (by linarith :
    1 - min ((max 1 (t - lars_w_steps c) : ℤ) : ℚ) (poly_horizon c) /
      poly_horizon c ≤
    1 - min ((max 1 (s - lars_w_steps c) : ℤ) : ℚ) (poly_horizon c) /
      poly_horizon c) 2
  have hplr : (1 : ℚ) / 10000 ≤ (lars_params c.batch_size).1 := by
    unfold lars_params
    split_ifs <;> norm_num
  have hmul := mul_le_mul_of_nonneg_left hpow
    (by linarith : (0 : ℚ) ≤ (lars_params c.batch_size).1 - 1 / 10000)
  linarith

/-- Witness for C4's amended theorem on the concrete configuration of the
counterexample (`w_steps = 5`, horizon `6`): the horizon is at least 1,
the ramp branch is taken at step 3, and the rate does not increase from
step 7 to step 9. -/
theorem poly_rate_fn_decay_spec_witness :
    (1 ≤ poly_horizon ⟨4096, 256, 4096, [], [], 1/10, 10⟩) ∧
    (poly_rate_fn ⟨4096, 256, 4096, [], [], 1/10, 10⟩ 3 =
      (lars_params (4096 : ℕ)).1 * ((3 : ℤ) : ℚ) /
        ((lars_w_steps ⟨4096, 256, 4096, [], [], 1/10, 10⟩ : ℤ) : ℚ)) ∧
    (poly_rate_fn ⟨4096, 256, 4096, [], [], 1/10, 10⟩ 9 ≤
      poly_rate_fn ⟨4096, 256, 4096, [], [], 1/10, 10⟩ 7) := by
  have hw : lars_w_steps ⟨4096, 256, 4096, [], [], 1/10, 10⟩ = 5 := by
    norm_num [lars_w_steps, lars_params, batches_per_epoch]
  have h := poly_rate_fn_decay_spec ⟨4096, 256, 4096, [], [], 1/10, 10⟩
    (by norm_num [lars_params])
  exact ⟨h.1, h.2.1 3 (by rw [hw]; decide),
    h.2.2.2 7 9 (by rw [hw]; decide) (by decide)⟩

end ResnetRunLoop
